import Mathlib

/-!
Verification of the API-key issuance, rotation and WebSocket-broadcast
pipeline of the fastify-news-backend repository.

The JavaScript source is shallowly embedded: the `api_keys` table is a list
of records plus a fresh-id counter, timestamps are natural numbers
(milliseconds), and each Knex query is translated to the corresponding pure
list operation.  Stateful operations take the store and return the updated
store together with the value the JavaScript function returns.
-/

namespace NewsBackend

/-- A row of the `api_keys` table (columns per `src/server.mjs` and
`src/src/models/ApiKey.js`: id, key, description, is_active, expires_at,
created_at; `updated_at` is omitted as no verified operation reads it). -/
structure ApiKeyRecord where
  id : Nat
  key : String
  description : String
  is_active : Bool
  expires_at : Nat
  created_at : Nat
deriving DecidableEq, Repr

/-- The credential store: the `api_keys` table contents in insertion order,
plus the auto-increment counter the database uses for fresh ids. -/
structure Store where
  records : List ApiKeyRecord
  nextId : Nat
deriving DecidableEq, Repr

def emptyStore : Store := { records := [], nextId := 0 }

/-- The WHERE clause of `findValidKey`:
`.where({ key, is_active: true }).where("expires_at", ">", db.fn.now())`. -/
def matchesValid (k : String) (now : Nat) (r : ApiKeyRecord) : Bool :=
  r.key == k && r.is_active && decide (now < r.expires_at)

/-- `ApiKey.findValidKey` (src/src/models/ApiKey.js lines 11-33, identical in
src/server.mjs lines 333-351): select the first row matching the key that is
active and unexpired; `.first()` of an empty result is `undefined` (`none`). -/
def findValidKey (k : String) (now : Nat) (s : Store) : Option ApiKeyRecord :=
  s.records.find? (matchesValid k now)

/-- `ApiKey.deleteExpiredKeys` (src/src/models/ApiKey.js lines 35-51):
`DELETE FROM api_keys WHERE expires_at <= now`, returning the number of
deleted rows. -/
def deleteExpiredKeys (now : Nat) (s : Store) : Nat × Store :=
  ((s.records.filter (fun r => decide (r.expires_at ≤ now))).length,
   { s with records := s.records.filter (fun r => decide (now < r.expires_at)) })

/-- `cleanupExpiredApiKeys` (src/unnamed/part_002 lines 237-287), the
scheduled wrapper draft: it deletes with the strict comparison
`.where("expires_at", "<", new Date())`. -/
def cleanupExpiredApiKeys (now : Nat) (s : Store) : Nat × Store :=
  ((s.records.filter (fun r => decide (r.expires_at < now))).length,
   { s with records := s.records.filter (fun r => decide (now ≤ r.expires_at)) })

/-- Expiry offset used by `rotateKeys`: `Date.now() + 24 * 60 * 60 * 1000`. -/
def rotationOffset : Nat := 24 * 60 * 60 * 1000

/-- Modelled from the spec: the `api_keys` schema (its migration is not under
src/) gives the `is_active` column a default, and the spec states rotation
"inserts a record with `isActive=true`"; `rotateKeys` inserts without listing
`is_active`, so the inserted row takes this default value `true` (the overlap
draft in src/unnamed/part_002 sets `is_active: true` explicitly). -/
def insertDefaultActive : Bool := true

/-- The row inserted by `models.ApiKey.rotateKeys` (src/server.mjs lines
366-396): fresh id, the generated token, fixed description, default activity,
expiry 24 hours from now. -/
def newRotatedRecord (k : String) (now : Nat) (s : Store) : ApiKeyRecord :=
  { id := s.nextId, key := k, description := "Auto-rotated API key",
    is_active := insertDefaultActive, expires_at := now + rotationOffset,
    created_at := now }

/-- First half of `rotateKeys`: the INSERT, returning the new row id. -/
def rotateInsert (k : String) (now : Nat) (s : Store) : Nat × Store :=
  (s.nextId,
   { records := s.records ++ [newRotatedRecord k now s], nextId := s.nextId + 1 })

/-- Second half of `rotateKeys`: the UPDATE
`.where("id", "!=", newKey.id).update({ is_active: false })`. -/
def rotateDeactivate (keepId : Nat) (s : Store) : Store :=
  { s with
    records := s.records.map
      (fun r => if r.id ≠ keepId then { r with is_active := false } else r) }

/-- `models.ApiKey.rotateKeys` (src/server.mjs lines 366-396, identical in
src/src/models/ApiKey.js lines 53-89): insert the new key, read it back by
id, then deactivate every other row.  Returns the read-back row. -/
def rotateKeys (k : String) (now : Nat) (s : Store) : Option ApiKeyRecord × Store :=
  let inserted := rotateInsert k now s
  let newKey := inserted.2.records.find? (fun r => r.id == inserted.1)
  (newKey, rotateDeactivate inserted.1 inserted.2)

/-- Expiry offset of the overlap-variant draft:
`expirationDate.setMinutes(getMinutes() + 70)` (1 hour + 10 minutes). -/
def overlapOffset : Nat := 70 * 60 * 1000

/-- `rotateApiKeys` of the overlap-variant scheduler draft
(src/unnamed/part_002 lines 88-162): it only INSERTs the new key (explicitly
`is_active: true`, expiry 70 minutes); deactivation of older keys is deferred
to a separate delayed function and is not part of this operation. -/
def rotateApiKeysOverlap (k : String) (now : Nat) (s : Store) : Nat × Store :=
  (s.nextId,
   { records := s.records ++
      [{ id := s.nextId, key := k, description := "Auto-generated key",
         is_active := true, expires_at := now + overlapOffset,
         created_at := now }],
     nextId := s.nextId + 1 })

/- ------------------------------------------------------------------ -/
/- Request authentication (verifyApiKey middleware)                    -/
/- ------------------------------------------------------------------ -/

/-- Shape of an HTTP error reply sent by the middleware. -/
structure HttpResponse where
  status : Nat
  success : Bool
  message : String
deriving DecidableEq, Repr

/-- The uniform reply of `verifyApiKey`:
`reply.code(401).send(... false ... "Invalid API key" ...)`. -/
def invalidApiKeyResponse : HttpResponse :=
  { status := 401, success := false, message := "Invalid API key" }

/-- Outcome of the `findValidKey` call as seen by a caller: the query can
throw (store error), find no row, or find a row. -/
inductive LookupOutcome where
  | storeError
  | notFound
  | found (r : ApiKeyRecord)
deriving DecidableEq, Repr

/-- The lookup outcome produced by a healthy store. -/
def lookupOutcomeOf (k : String) (now : Nat) (s : Store) : LookupOutcome :=
  match findValidKey k now s with
  | some r => .found r
  | none => .notFound

/-- `verifyApiKey` (src/server.mjs lines 449-474, identical in
src/src/middleware/index.js lines 52-77).  Result: the early 401 reply if
any (`none` means the request proceeds), and whether `findValidKey` was
called.  A missing header throws before the store is queried; a missing
match throws after; a store error propagates into the same catch — all
three land in `reply.code(401).send(...)`. -/
def verifyApiKey (hdr : Option String) (outcome : LookupOutcome) :
    Option HttpResponse × Bool :=
  match hdr with
  | none => (some invalidApiKeyResponse, false)
  | some _ =>
    match outcome with
    | .storeError => (some invalidApiKeyResponse, true)
    | .notFound => (some invalidApiKeyResponse, true)
    | .found _ => (none, true)

/- ------------------------------------------------------------------ -/
/- Demonstration data used by witnesses                                -/
/- ------------------------------------------------------------------ -/

def demoRecordA : ApiKeyRecord :=
  { id := 1, key := "A", description := "d", is_active := true,
    expires_at := 100, created_at := 0 }

def demoRecordB : ApiKeyRecord :=
  { id := 2, key := "B", description := "d", is_active := false,
    expires_at := 100, created_at := 0 }

def demoRecordExpired : ApiKeyRecord :=
  { id := 3, key := "C", description := "d", is_active := true,
    expires_at := 40, created_at := 0 }

def demoStore : Store :=
  { records := [demoRecordA, demoRecordB, demoRecordExpired], nextId := 4 }

/- ------------------------------------------------------------------ -/
/- C3: findValidKey returns a record iff one matches                   -/
/- ------------------------------------------------------------------ -/

/-- Claim C3: for every store, key and time, `findValidKey` returns some
record exactly when the store holds a record with that key which is active
and unexpired; any returned record is such a record of the store; and a key
present in no record yields `none`. -/
theorem findValidKey_spec (k : String) (now : Nat) (s : Store) :
    ((findValidKey k now s).isSome ↔
      ∃ r ∈ s.records, r.key = k ∧ r.is_active = true ∧ now < r.expires_at) ∧
    (∀ r, findValidKey k now s = some r →
      r ∈ s.records ∧ r.key = k ∧ r.is_active = true ∧ now < r.expires_at) ∧
    ((∀ r ∈ s.records, r.key ≠ k) → findValidKey k now s = none) := by
  have hmatch : ∀ r : ApiKeyRecord, matchesValid k now r = true ↔
      (r.key = k ∧ r.is_active = true ∧ now < r.expires_at) := by
    intro r
    simp [matchesValid, Bool.and_eq_true, beq_iff_eq, decide_eq_true_eq,
      and_assoc]
  refine ⟨?_, ?_, ?_⟩
  · rw [Option.isSome_iff_exists]
    constructor
    · rintro ⟨r, hr⟩
      exact ⟨r, List.mem_of_find?_eq_some hr, (hmatch r).1 (List.find?_some hr)⟩
    · rintro ⟨r, hrmem, hr⟩
      rcases List.find?_isSome.2 ⟨r, hrmem, (hmatch r).2 hr⟩ with h
      exact Option.isSome_iff_exists.1 h
  · intro r hr
    exact ⟨List.mem_of_find?_eq_some hr, (hmatch r).1 (List.find?_some hr)⟩
  · intro hnone
    apply List.find?_eq_none.2
    intro r hrmem hmatches
    exact hnone r hrmem ((hmatch r).1 hmatches).1

/-- Witness for C3 at concrete inputs: the demonstration store returns its
matching record for key "A" at time 50, and `none` for an absent key. -/
theorem findValidKey_spec_witness :
    (demoRecordA ∈ demoStore.records ∧ demoRecordA.key = "A" ∧
      demoRecordA.is_active = true ∧ 50 < demoRecordA.expires_at) ∧
    findValidKey "nonexistent" 50 demoStore = none := by
  constructor
  · exact (findValidKey_spec "A" 50 demoStore).2.1 demoRecordA (by rfl)
  · exact (findValidKey_spec "nonexistent" 50 demoStore).2.2 (by decide)

/- ------------------------------------------------------------------ -/
/- C6: deleteExpiredKeys removes exactly the expired rows              -/
/- ------------------------------------------------------------------ -/

/-- The concrete table of scenario F: two expired rows (one of them still
flagged active) and one active unexpired row. -/
def scenarioFStore : Store :=
  { records :=
      [{ id := 1, key := "old1", description := "d", is_active := true,
         expires_at := 10, created_at := 0 },
       { id := 2, key := "old2", description := "d", is_active := false,
         expires_at := 20, created_at := 0 },
       { id := 3, key := "live", description := "d", is_active := true,
         expires_at := 1000, created_at := 0 }],
    nextId := 4 }

/-- Claim C6: `deleteExpiredKeys` returns the count of rows with
`expires_at <= now` (regardless of `is_active`), keeps exactly the rows with
`expires_at > now` unchanged, and on the scenario-F table at time 50 returns
2 with only the live row remaining. -/
theorem deleteExpiredKeys_spec (now : Nat) (s : Store) :
    (deleteExpiredKeys now s).1 =
      (s.records.filter (fun r => decide (r.expires_at ≤ now))).length ∧
    (deleteExpiredKeys now s).2.records =
      s.records.filter (fun r => decide (now < r.expires_at)) ∧
    (∀ r ∈ s.records, now < r.expires_at →
      r ∈ (deleteExpiredKeys now s).2.records) ∧
    (∀ r ∈ (deleteExpiredKeys now s).2.records,
      r ∈ s.records ∧ now < r.expires_at) ∧
    (deleteExpiredKeys 50 scenarioFStore).1 = 2 ∧
    (deleteExpiredKeys 50 scenarioFStore).2.records =
      [{ id := 3, key := "live", description := "d", is_active := true,
         expires_at := 1000, created_at := 0 }] := by
  refine ⟨rfl, rfl, ?_, ?_, by decide, by decide⟩
  · intro r hr hlt
    exact List.mem_filter.2 ⟨hr, by simpa using hlt⟩
  · intro r hr
    have h := List.mem_filter.1 hr
    exact ⟨h.1, by simpa using h.2⟩

/-- Witness for C6 at concrete inputs: the live row of the scenario-F table
survives the sweep at time 50. -/
theorem deleteExpiredKeys_spec_witness :
    ({ id := 3, key := "live", description := "d", is_active := true,
       expires_at := 1000, created_at := 0 } : ApiKeyRecord) ∈
      (deleteExpiredKeys 50 scenarioFStore).2.records :=
  (deleteExpiredKeys_spec 50 scenarioFStore).2.2.1
    { id := 3, key := "live", description := "d", is_active := true,
      expires_at := 1000, created_at := 0 } (by decide) (by decide)

/- ------------------------------------------------------------------ -/
/- C4: missing or invalid key gives a uniform 401 without/with a query -/
/- ------------------------------------------------------------------ -/

/-- Claim C4: a protected request without the `x-api-key` header is rejected
with the uniform 401 body and no store query is issued; a request whose key
matches nothing is rejected with the identical 401 body (the store having
been queried once); the body is literally status 401, success false,
message "Invalid API key", and a store error yields the same body, so the
reply never distinguishes the failure reason. -/
theorem verifyApiKey_reject_spec (k : String) (now : Nat) (s : Store) :
    verifyApiKey none (lookupOutcomeOf k now s) =
      (some invalidApiKeyResponse, false) ∧
    (findValidKey k now s = none →
      verifyApiKey (some k) (lookupOutcomeOf k now s) =
        (some invalidApiKeyResponse, true)) ∧
    verifyApiKey (some k) LookupOutcome.storeError =
      (some invalidApiKeyResponse, true) ∧
    invalidApiKeyResponse =
      { status := 401, success := false, message := "Invalid API key" } := by
  refine ⟨rfl, ?_, rfl, rfl⟩
  intro hnone
  simp [verifyApiKey, lookupOutcomeOf, hnone]

/-- Witness for C4 at concrete inputs: an absent header on the demonstration
store is rejected without a query, and an unknown key is rejected after one
query, both with the uniform body. -/
theorem verifyApiKey_reject_spec_witness :
    verifyApiKey none (lookupOutcomeOf "nope" 50 demoStore) =
      (some invalidApiKeyResponse, false) ∧
    verifyApiKey (some "nope") (lookupOutcomeOf "nope" 50 demoStore) =
      (some invalidApiKeyResponse, true) :=
  ⟨(verifyApiKey_reject_spec "nope" 50 demoStore).1,
   (verifyApiKey_reject_spec "nope" 50 demoStore).2.1 (by decide)⟩

/- ------------------------------------------------------------------ -/
/- C5: a store error during lookup yields 401, not 500                 -/
/- ------------------------------------------------------------------ -/

/-- Counterexample to claim C5: when the credential-store lookup itself
fails during `verifyApiKey`, the catch block replies with the uniform 401
"Invalid API key" body — its status is 401, not the generic 500 the claim
asserts. -/
theorem verifyApiKey_storeError_counterexample :
    (verifyApiKey (some "x") LookupOutcome.storeError).1 =
      some invalidApiKeyResponse ∧
    invalidApiKeyResponse.status = 401 ∧
    invalidApiKeyResponse.status ≠ 500 := by
  exact ⟨rfl, rfl, by decide⟩

/-- Claim C5 (amended): a store failure during the protected-request lookup
is caught by `verifyApiKey` and the request is rejected with the same
uniform 401 "Invalid API key" reply as a non-matching key — not with a 500. -/
theorem verifyApiKey_storeError_spec (k : String) :
    verifyApiKey (some k) LookupOutcome.storeError =
      (some invalidApiKeyResponse, true) ∧
    invalidApiKeyResponse.status = 401 := by
  exact ⟨rfl, rfl⟩

/- ------------------------------------------------------------------ -/
/- C2: one rotation inserts one active key and deactivates the rest     -/
/- ------------------------------------------------------------------ -/

/-- Id-freshness of the auto-increment counter: every stored row has an id
below `nextId`.  This is the database's own invariant for an auto-increment
primary key and is preserved by every embedded operation. -/
def idsFresh (s : Store) : Prop :=
  ∀ r ∈ s.records, r.id < s.nextId

/-- Counterexample to claim C2: the cited `rotateApiKeys` of the overlap
draft (src/unnamed/part_002) does not set `isActive=false` on any other
record in the same operation — after two sequential calls on an initially
empty table both rows are active and the first-created row still has
`is_active = true`, where the claim demands exactly one active row and
`is_active = false` on the first. -/
theorem rotateOverlap_counterexample :
    (((rotateApiKeysOverlap "k2" 1000
        (rotateApiKeysOverlap "k1" 0 emptyStore).2).2.records.filter
          (fun r => r.is_active)).length = 2) ∧
    ((rotateApiKeysOverlap "k2" 1000
        (rotateApiKeysOverlap "k1" 0 emptyStore).2).2.records.head?.map
          (fun r => r.is_active) = some true) := by
  exact ⟨by decide, by decide⟩

/-- Claim C2 (amended): `models.ApiKey.rotateKeys` inserts exactly one new
record (active, expiry now plus the 24-hour policy offset) and in the same
operation sets `is_active = false` on every other record, so two sequential
calls on an empty table leave exactly the second-created row active and the
first-created row inactive; the overlap-variant `rotateApiKeys` of
src/unnamed/part_002 instead performs only the insert, deferring
deactivation to a separate delayed step. -/
theorem rotateKeys_spec (k k1 k2 : String) (t t1 t2 : Nat) (s : Store)
    (hfresh : idsFresh s) :
    (rotateKeys k t s).2.records =
      s.records.map (fun r => { r with is_active := false }) ++
        [newRotatedRecord k t s] ∧
    (rotateKeys k t s).1 = some (newRotatedRecord k t s) ∧
    (newRotatedRecord k t s).is_active = true ∧
    (newRotatedRecord k t s).expires_at = t + rotationOffset ∧
    ((rotateKeys k2 t2 (rotateKeys k1 t1 emptyStore).2).2.records.map
        (fun r => r.is_active) = [false, true]) ∧
    ((rotateKeys k2 t2 (rotateKeys k1 t1 emptyStore).2).2.records.filter
        (fun r => r.is_active)).map (fun r => r.id) = [1] := by
  have hne : ∀ r ∈ s.records, r.id ≠ s.nextId := by
    intro r hr
    exact Nat.ne_of_lt (hfresh r hr)
  refine ⟨?_, ?_, rfl, rfl, ?_, ?_⟩
  · simp only [rotateKeys, rotateInsert, rotateDeactivate, List.map_append]
    congr 1
    · apply List.map_congr_left
      intro r hr
      simp [hne r hr]
    · simp [newRotatedRecord]
  · simp only [rotateKeys, rotateInsert]
    rw [List.find?_append]
    have h1 : s.records.find? (fun r => r.id == s.nextId) = none := by
      apply List.find?_eq_none.2
      intro r hr
      simpa using hne r hr
    simp [h1, newRotatedRecord]
  · simp [rotateKeys, rotateInsert, rotateDeactivate, newRotatedRecord,
      emptyStore, insertDefaultActive]
  · simp [rotateKeys, rotateInsert, rotateDeactivate, newRotatedRecord,
      emptyStore, insertDefaultActive]

/-- Witness for C2 at concrete inputs: rotating the demonstration store
(whose ids are fresh) appends the new active record and deactivates all
previous rows. -/
theorem rotateKeys_spec_witness :
    (rotateKeys "N" 50 demoStore).2.records =
      demoStore.records.map (fun r => { r with is_active := false }) ++
        [newRotatedRecord "N" 50 demoStore] ∧
    (newRotatedRecord "N" 50 demoStore).is_active = true :=
  ⟨(rotateKeys_spec "N" "a" "b" 50 0 0 demoStore
      (by simp only [idsFresh]; decide)).1,
   (rotateKeys_spec "N" "a" "b" 50 0 0 demoStore
      (by simp only [idsFresh]; decide)).2.2.1⟩

/- ------------------------------------------------------------------ -/
/- C9: startup rotation                                                 -/
/- ------------------------------------------------------------------ -/

/-- `startServer` (src/server.mjs lines 1005-1032): after starting the HTTP
listener it counts the `api_keys` rows and calls `rotateKeys` only when the
count is zero. -/
def startServer (k : String) (now : Nat) (s : Store) : Store :=
  if s.records.length = 0 then (rotateKeys k now s).2 else s

/-- The initialization tail of `setupScheduledTasks`
(src/unnamed/part_002 lines 66-78): it runs `rotateApiKeys` once,
unconditionally, after installing the cron entries. -/
def setupScheduledTasksInit (k : String) (now : Nat) (s : Store) : Store :=
  (rotateApiKeysOverlap k now s).2

/-- Counterexample to claim C9: on a non-empty initial store,
`startServer` executes no rotation at all — the store is returned
unchanged, so no new key is inserted before the first scheduled tick. -/
theorem startServer_counterexample :
    startServer "fresh" 0 demoStore = demoStore ∧
    (startServer "fresh" 0 demoStore).records.length = 3 := by
  exact ⟨by decide, by decide⟩

/-- Claim C9 (amended): `startServer` runs a rotation at startup only when
the credential store is empty (leaving a non-empty store untouched, and
leaving exactly one active unexpired key when it was empty), while the
overlap-variant scheduler's initialization runs one rotation
unconditionally, inserting an active key whatever the initial store. -/
theorem startServer_spec (k : String) (now : Nat) (s : Store)
    (hpos : 0 < rotationOffset) :
    (s.records ≠ [] → startServer k now s = s) ∧
    (s.records = [] →
      (startServer k now s).records = [newRotatedRecord k now s] ∧
      (newRotatedRecord k now s).is_active = true ∧
      now < (newRotatedRecord k now s).expires_at) ∧
    (setupScheduledTasksInit k now s).records.length =
      s.records.length + 1 ∧
    ((setupScheduledTasksInit k now s).records.filter
        (fun r => r.is_active && decide (now < r.expires_at))).length ≥ 1 := by
  refine ⟨?_, ?_, ?_, ?_⟩
  · intro hne
    simp [startServer, List.length_eq_zero, hne]
  · intro hemp
    refine ⟨?_, rfl, ?_⟩
    · simp [startServer, hemp, rotateKeys, rotateInsert, rotateDeactivate,
        newRotatedRecord]
    · have h1 : now < now + rotationOffset := Nat.lt_add_of_pos_right hpos
      simpa [newRotatedRecord] using h1
  · simp [setupScheduledTasksInit, rotateApiKeysOverlap]
  · simp only [setupScheduledTasksInit, rotateApiKeysOverlap,
      List.filter_append]
    have h2 : (0:Nat) < overlapOffset := by decide
    simp [Nat.lt_add_of_pos_right h2]

/-- Witness for C9 at concrete inputs: starting on an empty store installs
exactly one active unexpired key, and the unconditional overlap-draft
initialization grows a non-empty store by one row. -/
theorem startServer_spec_witness :
    (startServer "init" 7 emptyStore).records =
      [newRotatedRecord "init" 7 emptyStore] ∧
    (setupScheduledTasksInit "init" 7 demoStore).records.length = 4 :=
  ⟨((startServer_spec "init" 7 emptyStore (by decide)).2.1 (by decide)).1,
   (startServer_spec "init" 7 demoStore (by decide)).2.2.1⟩

/- ------------------------------------------------------------------ -/
/- Connection registry and broadcast                                    -/
/- ------------------------------------------------------------------ -/

/-- A WebSocket handle held by the registry.  `sendOk` records whether
`connection.socket.send` succeeds on this handle or throws (a dead socket). -/
structure Conn where
  sendOk : Bool
deriving DecidableEq, Repr

/-- The in-memory connection map (`ClientConnection.connections`), keyed by
client id, in insertion order as a JavaScript `Map` iterates it. -/
abbrev Registry := List (String × Conn)

/-- `ClientConnection.addConnection`: `this.connections.set(clientId, c)`;
client ids are freshly random, so the entry is appended. -/
def addConnection (cid : String) (c : Conn) (reg : Registry) : Registry :=
  reg ++ [(cid, c)]

/-- `ClientConnection.removeConnection`: `this.connections.delete(clientId)`. -/
def removeConnection (cid : String) (reg : Registry) : Registry :=
  reg.filter (fun p => p.1 != cid)

/-- The loop body of `broadcastMessage` (src/src/models/ClientConnection.js
lines 34-53): iterate the entries snapshot; a successful send increments the
count, a throwing send calls `removeConnection` on the live map and is
neither retried nor propagated. -/
def broadcastGo : List (String × Conn) → Registry → Nat → Nat × Registry
  | [], reg, count => (count, reg)
  | (cid, c) :: rest, reg, count =>
    if c.sendOk then broadcastGo rest reg (count + 1)
    else broadcastGo rest (removeConnection cid reg) count

/-- `ClientConnection.broadcastMessage`: returns the delivered count and, as
a side effect, the registry with the failed entries removed. -/
def broadcastMessage (reg : Registry) : Nat × Registry :=
  broadcastGo reg reg 0

/-- Distinct map keys (guaranteed by the `Map` container). -/
def registryKeysNodup (reg : Registry) : Prop :=
  (reg.map Prod.fst).Nodup

/-- Loop invariant of `broadcastGo`: walking the remaining entries over a
registry consisting of the already-kept prefix and those same entries. -/
theorem broadcastGo_spec (entries pre : List (String × Conn)) (count : Nat)
    (hnd : ((pre ++ entries).map Prod.fst).Nodup) :
    broadcastGo entries (pre ++ entries) count =
      (count + (entries.filter (fun p => p.2.sendOk)).length,
       pre ++ entries.filter (fun p => p.2.sendOk)) := by
  induction entries generalizing pre count with
  | nil => simp [broadcastGo]
  | cons hd tl ih =>
    obtain ⟨cid, c⟩ := hd
    by_cases hsend : c.sendOk
    · have h1 := ih (pre ++ [(cid, c)]) (count + 1) (by simpa using hnd)
      simp only [broadcastGo, hsend, if_true]
      rw [show pre ++ (cid, c) :: tl = (pre ++ [(cid, c)]) ++ tl by simp, h1]
      simp [hsend, List.filter_cons, Nat.add_assoc, Nat.add_comm 1]
    · have hcid : ∀ p ∈ pre ++ tl, p.1 ≠ cid := by
        have h2 : cid ∉ (pre ++ tl).map Prod.fst := by
          have h3 := hnd
          simp only [List.map_append, List.map_cons] at h3 ⊢
          have h4 := List.Nodup.not_mem ((List.nodup_middle).1 h3)
          simpa using h4
        intro p hp hpe
        exact h2 (by simpa [hpe] using List.mem_map_of_mem Prod.fst hp)
      have hrem : removeConnection cid (pre ++ (cid, c) :: tl) = pre ++ tl := by
        simp only [removeConnection, List.filter_append, List.filter_cons]
        have h5 : ∀ l : List (String × Conn), (∀ p ∈ l, p.1 ≠ cid) →
            l.filter (fun p => p.1 != cid) = l := by
          intro l hl
          apply List.filter_eq_self.2
          intro p hp
          simpa using hl p hp
        rw [h5 pre (fun p hp => hcid p (List.mem_append_left _ hp)),
            h5 tl (fun p hp => hcid p (List.mem_append_right _ hp))]
        simp
      have h6 := ih pre count (by
        have h3 := hnd
        simp only [List.map_append, List.map_cons] at h3
        simpa using List.Nodup.of_cons ((List.nodup_middle).1 h3))
      simp only [broadcastGo, hsend, if_false, Bool.false_eq_true, hrem, h6]
      simp [List.filter_cons, hsend]

/-- The three-connection registry of scenario D: the middle handle throws. -/
def scenarioDRegistry : Registry :=
  [("c1", { sendOk := true }), ("c2", { sendOk := false }),
   ("c3", { sendOk := true })]

/-- Claim C7: `broadcastMessage` attempts delivery to every entry, returns
the number of successful sends, and removes from the registry exactly the
entries whose send threw; with three registered connections of which one
throws, it returns 2 and the failing connection is gone afterwards. -/
theorem broadcastMessage_spec (reg : Registry)
    (hnd : registryKeysNodup reg) :
    broadcastMessage reg =
      ((reg.filter (fun p => p.2.sendOk)).length,
       reg.filter (fun p => p.2.sendOk)) ∧
    broadcastMessage scenarioDRegistry =
      (2, [("c1", { sendOk := true }), ("c3", { sendOk := true })]) ∧
    ∀ p ∈ scenarioDRegistry, p.2.sendOk = false →
      p ∉ (broadcastMessage scenarioDRegistry).2 := by
  refine ⟨?_, by decide, by decide⟩
  have h := broadcastGo_spec reg [] 0 (by simpa [registryKeysNodup] using hnd)
  simpa [broadcastMessage] using h

/-- Witness for C7 at concrete inputs: the scenario-D registry has distinct
keys, the broadcast delivers to two connections, and the failed entry is no
longer registered. -/
theorem broadcastMessage_spec_witness :
    registryKeysNodup scenarioDRegistry ∧
    broadcastMessage scenarioDRegistry =
      (2, [("c1", { sendOk := true }), ("c3", { sendOk := true })]) :=
  ⟨by simp only [registryKeysNodup]; decide,
   (broadcastMessage_spec scenarioDRegistry
      (by simp only [registryKeysNodup]; decide)).2.1⟩

/- ------------------------------------------------------------------ -/
/- C8: WebSocket handshake and registry registration                    -/
/- ------------------------------------------------------------------ -/

/-- A frame the server writes on the socket during the handshake. -/
inductive WsFrame where
  | errorFrame (message : String)
  | systemFrame (action : String)
deriving DecidableEq, Repr

/-- Observable result of a WebSocket handshake handler: the registry after
the handler ran, the frames it sent, and whether it closed the socket. -/
structure WsResult where
  registry : Registry
  framesSent : List WsFrame
  socketClosed : Bool
deriving DecidableEq, Repr

/-- The `/ws` handler (src/src/routes/websocket.js lines 101-209):
`wsAuthMiddleware` sends a single error frame and closes on a missing or
invalid key (closing without a frame when the lookup throws); only when the
key is valid is `addConnection` reached and the welcome frame sent. -/
def wsHandshake (hdr : Option String) (outcome : LookupOutcome)
    (newCid : String) (c : Conn) (reg : Registry) : WsResult :=
  match hdr with
  | none =>
    { registry := reg,
      framesSent := [.errorFrame "Authentication required"],
      socketClosed := true }
  | some _ =>
    match outcome with
    | .storeError => { registry := reg, framesSent := [], socketClosed := true }
    | .notFound =>
      { registry := reg, framesSent := [.errorFrame "Invalid API key"],
        socketClosed := true }
    | .found _ =>
      { registry := addConnection newCid c reg,
        framesSent := [.systemFrame "connected"], socketClosed := false }

/-- The `/ws/request-api-key` handler (src/src/routes/websocket.js lines
212-260, same as `/api-key-ws` in src/unnamed/part_004 lines 344-412): it
generates a client id and registers the connection without consulting the
credential store at all — the header and store parameters are never read. -/
def requestApiKeyHandshake (_hdr : Option String) (_s : Store)
    (newCid : String) (c : Conn) (reg : Registry) : WsResult :=
  { registry := addConnection newCid c reg,
    framesSent := [.systemFrame "api_key_request_ready"],
    socketClosed := false }

/-- Counterexample to claim C8: a handshake on `/ws/request-api-key` with no
`x-api-key` header at all and an empty credential store (so no
`findValid` check can succeed) still registers the connection — the
resulting registry holds an entry that was registered without successful
authentication, and the socket stays open. -/
theorem requestApiKeyHandshake_counterexample :
    (requestApiKeyHandshake none emptyStore "c9" { sendOk := true } []).registry
      = [("c9", { sendOk := true })] ∧
    (requestApiKeyHandshake none emptyStore "c9" { sendOk := true }
      []).socketClosed = false ∧
    findValidKey "c9" 0 emptyStore = none := by
  exact ⟨rfl, rfl, rfl⟩

/-- Claim C8 (amended): on the authenticated `/ws` endpoint an entry is
added to the registry only after the `findValid` check passes — a handshake
with a missing or invalid key leaves the registry unchanged, sends exactly
one error frame and closes the socket (a store error closes without a
frame) — while the dedicated API-key-request endpoints
(`/ws/request-api-key`, `/api-key-ws`) register the connection without any
authentication by design. -/
theorem wsHandshake_spec (hdr : Option String) (outcome : LookupOutcome)
    (cid : String) (c : Conn) (reg : Registry) (s : Store) :
    (wsHandshake none outcome cid c reg =
      { registry := reg, framesSent := [.errorFrame "Authentication required"],
        socketClosed := true }) ∧
    (∀ k, wsHandshake (some k) .notFound cid c reg =
      { registry := reg, framesSent := [.errorFrame "Invalid API key"],
        socketClosed := true }) ∧
    (∀ k, wsHandshake (some k) .storeError cid c reg =
      { registry := reg, framesSent := [], socketClosed := true }) ∧
    (∀ k r, wsHandshake (some k) (.found r) cid c reg =
      { registry := addConnection cid c reg,
        framesSent := [.systemFrame "connected"], socketClosed := false }) ∧
    ((wsHandshake hdr outcome cid c reg).registry ≠ reg →
      ∃ k r, hdr = some k ∧ outcome = .found r) ∧
    (requestApiKeyHandshake hdr s cid c reg).registry =
      addConnection cid c reg := by
  refine ⟨rfl, fun k => rfl, fun k => rfl, fun k r => rfl, ?_, rfl⟩
  intro hneq
  match hdr, outcome with
  | none, _ => exact absurd rfl hneq
  | some k, .storeError => exact absurd rfl hneq
  | some k, .notFound => exact absurd rfl hneq
  | some k, .found r => exact ⟨k, r, rfl, rfl⟩

/-- Witness for C8 at concrete inputs: a failed handshake on `/ws` leaves
the registry empty with one error frame and a closed socket; a successful
one registers the client. -/
theorem wsHandshake_spec_witness :
    wsHandshake (some "bad") .notFound "c1" { sendOk := true } [] =
      { registry := [], framesSent := [.errorFrame "Invalid API key"],
        socketClosed := true } ∧
    wsHandshake (some "good") (.found demoRecordA) "c1" { sendOk := true } [] =
      { registry := [("c1", { sendOk := true })],
        framesSent := [.systemFrame "connected"], socketClosed := false } :=
  ⟨(wsHandshake_spec (some "bad") .notFound "c1" { sendOk := true } []
      emptyStore).2.1 "bad",
   (wsHandshake_spec (some "good") (.found demoRecordA) "c1"
      { sendOk := true } [] emptyStore).2.2.2.1 "good" demoRecordA⟩

/- ------------------------------------------------------------------ -/
/- C1: no instant with zero active, non-expired keys                    -/
/- ------------------------------------------------------------------ -/

/-- `DELETE /api/keys/:id` (src/server.mjs lines 946-971): an administrative
revoke sets `is_active = false` on one specific row. -/
def revokeKey (id : Nat) (s : Store) : Store :=
  { s with
    records := s.records.map
      (fun r => if r.id = id then { r with is_active := false } else r) }

/-- The store together with the current clock. -/
structure Sys where
  store : Store
  now : Nat
deriving DecidableEq, Repr

/-- The atomic micro-steps the pipeline interleaves: the two halves of a
rotation (its INSERT and its UPDATE), the cleanup sweep, an admin revoke,
and the passage of time. -/
inductive Event where
  | rotInsert (k : String)
  | rotDeactivate (keepId : Nat)
  | deleteExpired
  | revoke (id : Nat)
  | tick (dt : Nat)
deriving DecidableEq, Repr

def stepEvent (sys : Sys) : Event → Sys
  | .rotInsert k => { sys with store := (rotateInsert k sys.now sys.store).2 }
  | .rotDeactivate keepId =>
    { sys with store := rotateDeactivate keepId sys.store }
  | .deleteExpired =>
    { sys with store := (deleteExpiredKeys sys.now sys.store).2 }
  | .revoke id => { sys with store := revokeKey id sys.store }
  | .tick dt => { sys with now := sys.now + dt }

def runEvents (sys : Sys) (es : List Event) : Sys :=
  es.foldl stepEvent sys

/-- Whether some stored key is active and unexpired at the current instant
(what a reader needs for `findValidKey` to match anything). -/
def hasValidKey (sys : Sys) : Bool :=
  sys.store.records.any (fun r => r.is_active && decide (sys.now < r.expires_at))

/-- A record witnessing that readers see a valid key: it is stored, active,
and unexpired at the current instant. -/
def goodWitness (sys : Sys) (r : ApiKeyRecord) : Prop :=
  r ∈ sys.store.records ∧ r.is_active = true ∧ sys.now < r.expires_at

/-- The events compatible with keeping witness `r` alive: further rotation
inserts; the deactivation step of the rotation that created `r`; cleanup of
already-expired rows; revokes of other keys; and time advances that stay
strictly before `r`'s expiry. -/
def eventSafe (r : ApiKeyRecord) (sys : Sys) : Event → Bool
  | .rotInsert _ => true
  | .rotDeactivate keepId => keepId == r.id
  | .deleteExpired => true
  | .revoke id => id != r.id
  | .tick dt => decide (sys.now + dt < r.expires_at)

def traceSafe (r : ApiKeyRecord) : Sys → List Event → Bool
  | _, [] => true
  | sys, e :: es => eventSafe r sys e && traceSafe r (stepEvent sys e) es

theorem goodWitness_step (sys : Sys) (r : ApiKeyRecord) (e : Event)
    (hg : goodWitness sys r) (hs : eventSafe r sys e = true) :
    goodWitness (stepEvent sys e) r := by
  obtain ⟨hmem, hact, hexp⟩ := hg
  cases e with
  | rotInsert k =>
    exact ⟨List.mem_append_left _ hmem, hact, hexp⟩
  | rotDeactivate keepId =>
    have hkeep : keepId = r.id := by simpa [eventSafe] using hs
    refine ⟨?_, hact, hexp⟩
    have h1 : (fun x : ApiKeyRecord =>
        if x.id ≠ keepId then { x with is_active := false } else x) r = r := by
      simp [hkeep]
    simpa [stepEvent, rotateDeactivate, h1] using
      List.mem_map_of_mem (fun x : ApiKeyRecord =>
        if x.id ≠ keepId then { x with is_active := false } else x) hmem
  | deleteExpired =>
    exact ⟨List.mem_filter.2 ⟨hmem, by simpa using hexp⟩, hact, hexp⟩
  | revoke id =>
    have hne : id ≠ r.id := by simpa [eventSafe] using hs
    refine ⟨?_, hact, hexp⟩
    have hne2 : ¬ (r.id = id) := fun h => hne h.symm
    have h1 : (fun x : ApiKeyRecord =>
        if x.id = id then { x with is_active := false } else x) r = r := by
      simp [hne2]
    simpa [stepEvent, revokeKey, h1] using
      List.mem_map_of_mem (fun x : ApiKeyRecord =>
        if x.id = id then { x with is_active := false } else x) hmem
  | tick dt =>
    exact ⟨hmem, hact, by simpa [eventSafe] using hs⟩

/-- Counterexample to claim C1: starting from the empty store, one rotation
completes in full (insert, then deactivation); once the clock passes the
rotated key's 24-hour expiry with no further rotation, the store holds zero
active non-expired keys and `findValidKey` on the rotated key returns
nothing — a later instant at which the claimed invariant fails. -/
theorem noGap_counterexample :
    hasValidKey (runEvents { store := emptyStore, now := 0 }
      [.rotInsert "k0", .rotDeactivate 0, .tick rotationOffset]) = false ∧
    findValidKey "k0"
      (runEvents { store := emptyStore, now := 0 }
        [.rotInsert "k0", .rotDeactivate 0, .tick rotationOffset]).now
      (runEvents { store := emptyStore, now := 0 }
        [.rotInsert "k0", .rotDeactivate 0, .tick rotationOffset]).store
      = none ∧
    hasValidKey (runEvents { store := emptyStore, now := 0 }
      [.rotInsert "k0", .rotDeactivate 0]) = true := by
  exact ⟨by decide, by decide, by decide⟩

/-- Claim C1 (amended): once a rotation's insert has produced a record `r`
that is active and unexpired, every state reached by interleaving further
rotation inserts, the deactivation step keeping `r`, expired-row cleanups,
revokes of other keys, and clock advances that stay strictly before `r`'s
expiry, still holds at least one active non-expired record, and
`findValidKey` on `r`'s key matches — in particular a reader interleaved
between a rotation's insert and its deactivation update never observes zero
valid keys.  (The unqualified claim fails: once the clock reaches the
newest key's expiry with no further rotation — or when a racing
deactivation or a revoke retires `r` — `findValidKey` matches nothing.) -/
theorem noGap_invariant (sys : Sys) (r : ApiKeyRecord) (es : List Event)
    (hg : goodWitness sys r) (hsafe : traceSafe r sys es = true) :
    goodWitness (runEvents sys es) r ∧
    hasValidKey (runEvents sys es) = true ∧
    (findValidKey r.key (runEvents sys es).now
      (runEvents sys es).store).isSome = true := by
  have hrun : goodWitness (runEvents sys es) r := by
    induction es generalizing sys with
    | nil => simpa [runEvents] using hg
    | cons e tl ih =>
      have h1 : eventSafe r sys e = true ∧
          traceSafe r (stepEvent sys e) tl = true := by
        simpa [traceSafe, Bool.and_eq_true] using hsafe
      have h2 := goodWitness_step sys r e hg h1.1
      simpa [runEvents] using ih (stepEvent sys e) h2 h1.2
  obtain ⟨hmem, hact, hexp⟩ := hrun
  refine ⟨⟨hmem, hact, hexp⟩, ?_, ?_⟩
  · exact List.any_eq_true.2 ⟨r, hmem, by simp [hact, hexp]⟩
  · rw [Option.isSome_iff_exists]
    have h3 : (findValidKey r.key (runEvents sys es).now
        (runEvents sys es).store).isSome = true := by
      apply List.find?_isSome.2
      exact ⟨r, hmem, by simp [matchesValid, hact, hexp]⟩
    exact Option.isSome_iff_exists.1 h3

/-- Witness for C1 at concrete inputs: the record inserted by a rotation at
time 0 stays a valid witness across the rotation's own deactivation, a
cleanup, a second rotation's insert, a revoke of an old key and a clock
advance below its expiry: readers at every point of this interleaving see a
valid key. -/
theorem noGap_invariant_witness :
    goodWitness
      (runEvents { store := (rotateInsert "k0" 0 emptyStore).2, now := 0 }
        [.rotDeactivate 0, .tick 1000, .deleteExpired, .rotInsert "k1",
         .revoke 2, .tick 3600000])
      (newRotatedRecord "k0" 0 emptyStore) ∧
    hasValidKey
      (runEvents { store := (rotateInsert "k0" 0 emptyStore).2, now := 0 }
        [.rotDeactivate 0, .tick 1000, .deleteExpired, .rotInsert "k1",
         .revoke 2, .tick 3600000]) = true :=
  ⟨(noGap_invariant { store := (rotateInsert "k0" 0 emptyStore).2, now := 0 }
      (newRotatedRecord "k0" 0 emptyStore)
      [.rotDeactivate 0, .tick 1000, .deleteExpired, .rotInsert "k1",
       .revoke 2, .tick 3600000]
      (by refine ⟨by decide, by decide, by decide⟩) (by decide)).1,
   (noGap_invariant { store := (rotateInsert "k0" 0 emptyStore).2, now := 0 }
      (newRotatedRecord "k0" 0 emptyStore)
      [.rotDeactivate 0, .tick 1000, .deleteExpired, .rotInsert "k1",
       .revoke 2, .tick 3600000]
      (by refine ⟨by decide, by decide, by decide⟩) (by decide)).2.1⟩

/- ------------------------------------------------------------------ -/
/- C10: the dispatcher's symmetric encryption round-trips               -/
/- ------------------------------------------------------------------ -/

/-- AES block size in bytes (`aes-256-cbc` with a 16-byte random IV). -/
def blockSize : Nat := 16

/-- Lowercase hex digit for a value below 16, as `Buffer.toString("hex")`
produces. -/
def hexDigitChar (n : Nat) : Char :=
  if n < 10 then Char.ofNat (48 + n) else Char.ofNat (97 + (n - 10))

/-- `Buffer.toString("hex")`: two lowercase hex digits per byte. -/
def hexEncode : List Nat → List Char
  | [] => []
  | b :: bs => hexDigitChar (b / 16) :: hexDigitChar (b % 16) :: hexEncode bs

/-- Value of one hex digit (upper or lower case), `none` for a non-digit. -/
def hexVal (c : Char) : Option Nat :=
  if 48 ≤ c.toNat ∧ c.toNat ≤ 57 then some (c.toNat - 48)
  else if 97 ≤ c.toNat ∧ c.toNat ≤ 102 then some (c.toNat - 97 + 10)
  else if 65 ≤ c.toNat ∧ c.toNat ≤ 70 then some (c.toNat - 65 + 10)
  else none

/-- `Buffer.from(str, "hex")`: consume digit pairs, truncating at the first
invalid pair or odd tail, as Node does. -/
def hexDecode : List Char → List Nat
  | c1 :: c2 :: cs =>
    (match hexVal c1, hexVal c2 with
     | some h, some l => (16 * h + l) :: hexDecode cs
     | _, _ => [])
  | _ => []

/-- Bytewise XOR, truncated to the shorter operand (CBC only applies it to
equal-length blocks). -/
def xorBytes : List Nat → List Nat → List Nat
  | [], _ => []
  | _ :: _, [] => []
  | a :: as, b :: bs => (a ^^^ b) :: xorBytes as bs

/-- PKCS#7 padding applied by `cipher.update`/`cipher.final`: append
`16 - len % 16` copies of that same value. -/
def padBytes (bs : List Nat) : List Nat :=
  bs ++ List.replicate (blockSize - bs.length % blockSize)
    (blockSize - bs.length % blockSize)

/-- PKCS#7 unpadding performed by `decipher.final`: read the last byte `p`,
check `1 ≤ p ≤ 16` and that the last `p` bytes all equal `p`, and strip
them; `decipher.final` throws on bad padding (`none`). -/
def unpadBytes (bs : List Nat) : Option (List Nat) :=
  match bs.getLast? with
  | none => none
  | some p =>
    if 1 ≤ p ∧ p ≤ blockSize ∧ p ≤ bs.length ∧
        bs.drop (bs.length - p) = List.replicate p p
    then some (bs.take (bs.length - p)) else none

/-- Split a byte list into 16-byte blocks (fuel-structured recursion; the
fuel starts at the list length, which always suffices). -/
def toBlocksAux : Nat → List Nat → List (List Nat)
  | _, [] => []
  | 0, _ :: _ => []
  | fuel + 1, b :: bs =>
    (b :: bs).take blockSize :: toBlocksAux fuel ((b :: bs).drop blockSize)

def toBlocks (l : List Nat) : List (List Nat) :=
  toBlocksAux l.length l

/-- CBC encryption over an abstract block transform `E` (the AES-256 block
cipher supplied by Node's `crypto`, which is outside this repository):
each plaintext block is XORed with the previous ciphertext block (the IV
for the first) before being enciphered. -/
def cbcEncBlocks (E : List Nat → List Nat) :
    List Nat → List (List Nat) → List (List Nat)
  | _, [] => []
  | iv, b :: bs =>
    E (xorBytes b iv) :: cbcEncBlocks E (E (xorBytes b iv)) bs

/-- CBC decryption over the abstract inverse transform `D`. -/
def cbcDecBlocks (D : List Nat → List Nat) :
    List Nat → List (List Nat) → List (List Nat)
  | _, [] => []
  | iv, c :: cs => xorBytes (D c) iv :: cbcDecBlocks D c cs

/-- `encryptionUtils.encrypt` (src/server.mjs lines 100-107): random 16-byte
IV, AES-256-CBC over the padded plaintext, wire form
`iv.toString("hex") + ":" + encrypted`.  The plaintext is its UTF-8 byte
sequence; the block cipher keyed by the static key is the parameter `E`. -/
def encrypt (E : List Nat → List Nat) (iv s : List Nat) : List Char :=
  hexEncode iv ++ ':' :: hexEncode (cbcEncBlocks E iv (toBlocks (padBytes s))).flatten

/-- `text.split(":")[0]`. -/
def splitColonPart0 (cs : List Char) : List Char :=
  cs.takeWhile (fun c => c != ':')

/-- `text.split(":")[1]`. -/
def splitColonPart1 (cs : List Char) : List Char :=
  ((cs.dropWhile (fun c => c != ':')).drop 1).takeWhile (fun c => c != ':')

/-- `encryptionUtils.decrypt` (src/server.mjs lines 110-119): split the wire
text on ":", hex-decode the IV and ciphertext, CBC-decrypt with the same
static key, unpad. -/
def decrypt (D : List Nat → List Nat) (wire : List Char) : Option (List Nat) :=
  unpadBytes ((cbcDecBlocks D (hexDecode (splitColonPart0 wire))
    (toBlocks (hexDecode (splitColonPart1 wire)))).flatten)

/- Helper lemmas for the round trip -/

theorem hexVal_hexDigitChar (n : Nat) (h : n < 16) :
    hexVal (hexDigitChar n) = some n := by
  have hfin : ∀ i : Fin 16, hexVal (hexDigitChar i.val) = some i.val := by decide
  exact hfin ⟨n, h⟩

theorem hexDigitChar_ne_colon (n : Nat) (h : n < 16) :
    (hexDigitChar n != ':') = true := by
  have hfin : ∀ i : Fin 16, (hexDigitChar i.val != ':') = true := by decide
  exact hfin ⟨n, h⟩

theorem hexDecode_hexEncode (bs : List Nat) (hb : ∀ b ∈ bs, b < 256) :
    hexDecode (hexEncode bs) = bs := by
  induction bs with
  | nil => rfl
  | cons b tl ih =>
    have hblt : b < 256 := hb b (List.mem_cons_self b tl)
    have hdiv : b / 16 < 16 := by omega
    have hmod : b % 16 < 16 := Nat.mod_lt b (by omega)
    simp only [hexEncode, hexDecode, hexVal_hexDigitChar (b / 16) hdiv,
      hexVal_hexDigitChar (b % 16) hmod]
    rw [ih (fun x hx => hb x (List.mem_cons_of_mem b hx))]
    congr 1
    omega

theorem hexEncode_no_colon (bs : List Nat) (hb : ∀ b ∈ bs, b < 256) :
    ∀ c ∈ hexEncode bs, (c != ':') = true := by
  induction bs with
  | nil => intro c hc; simp [hexEncode] at hc
  | cons b tl ih =>
    intro c hc
    have hblt : b < 256 := hb b (List.mem_cons_self b tl)
    simp only [hexEncode, List.mem_cons] at hc
    rcases hc with h1 | h2 | h3
    · exact h1 ▸ hexDigitChar_ne_colon (b / 16) (by omega)
    · exact h2 ▸ hexDigitChar_ne_colon (b % 16) (Nat.mod_lt b (by omega))
    · exact ih (fun x hx => hb x (List.mem_cons_of_mem b hx)) c h3

theorem takeWhile_append_colon (l r : List Char)
    (h : ∀ c ∈ l, (c != ':') = true) :
    (l ++ ':' :: r).takeWhile (fun c => c != ':') = l := by
  induction l with
  | nil => simp [List.takeWhile]
  | cons c tl ih =>
    have hc : (c != ':') = true := h c (List.mem_cons_self c tl)
    simp only [List.cons_append, List.takeWhile_cons, hc, if_true]
    rw [ih (fun x hx => h x (List.mem_cons_of_mem c hx))]

theorem dropWhile_append_colon (l r : List Char)
    (h : ∀ c ∈ l, (c != ':') = true) :
    (l ++ ':' :: r).dropWhile (fun c => c != ':') = ':' :: r := by
  induction l with
  | nil => simp [List.dropWhile]
  | cons c tl ih =>
    have hc : (c != ':') = true := h c (List.mem_cons_self c tl)
    simp only [List.cons_append, List.dropWhile_cons, hc, if_true]
    exact ih (fun x hx => h x (List.mem_cons_of_mem c hx))

theorem xorBytes_length (as bs : List Nat) :
    (xorBytes as bs).length = min as.length bs.length := by
  induction as generalizing bs with
  | nil => simp [xorBytes]
  | cons a ta ih =>
    cases bs with
    | nil => simp [xorBytes]
    | cons b tb => simp [xorBytes, ih tb]; omega

theorem xorBytes_cancel (as bs : List Nat) (h : as.length = bs.length) :
    xorBytes (xorBytes as bs) bs = as := by
  induction as generalizing bs with
  | nil => simp [xorBytes]
  | cons a ta ih =>
    cases bs with
    | nil => simp at h
    | cons b tb =>
      simp only [xorBytes, List.cons.injEq]
      exact ⟨Nat.xor_cancel_right b a, ih tb (by simpa using h)⟩

theorem xorBytes_bytes_lt (as : List Nat) : ∀ bs : List Nat,
    (∀ x ∈ as, x < 256) → (∀ x ∈ bs, x < 256) →
    ∀ x ∈ xorBytes as bs, x < 256 := by
  induction as with
  | nil => intro bs _ _ x hx; simp [xorBytes] at hx
  | cons a ta ih =>
    intro bs ha hb
    cases bs with
    | nil => intro x hx; simp [xorBytes] at hx
    | cons b tb =>
      intro x hx
      simp only [xorBytes, List.mem_cons] at hx
      rcases hx with h1 | h2
      · have h256 : (256:Nat) = 2 ^ 8 := by norm_num
        subst h1
        rw [h256]
        exact Nat.xor_lt_two_pow
          (h256 ▸ ha a (List.mem_cons_self a ta))
          (h256 ▸ hb b (List.mem_cons_self b tb))
      · exact ih tb (fun y hy => ha y (List.mem_cons_of_mem a hy))
          (fun y hy => hb y (List.mem_cons_of_mem b hy)) x h2

theorem unpadBytes_padBytes (bs : List Nat) :
    unpadBytes (padBytes bs) = some bs := by
  set p := blockSize - bs.length % blockSize with hp
  have hmod : bs.length % blockSize < blockSize := Nat.mod_lt _ (by decide)
  have hp1 : 1 ≤ p := by omega
  have hp16 : p ≤ blockSize := by omega
  have hrep : (List.replicate p p) ≠ [] := by
    cases hq : p with
    | zero => omega
    | succ q => simp [List.replicate_succ]
  have hlast : (padBytes bs).getLast? = some p := by
    rw [padBytes, ← hp, List.getLast?_append_of_ne_nil _ hrep]
    obtain ⟨q, hq⟩ : ∃ q, p = q + 1 := ⟨p - 1, by omega⟩
    rw [hq, List.replicate_succ', List.getLast?_concat]
  have hlen : (padBytes bs).length = bs.length + p := by
    simp [padBytes, ← hp]
  have hdrop : (padBytes bs).drop ((padBytes bs).length - p) =
      List.replicate p p := by
    rw [hlen, Nat.add_sub_cancel, padBytes, ← hp]
    have h1 : bs.length = bs.length := rfl
    have h2 := List.drop_left bs (List.replicate p p)
    exact h2
  have htake : (padBytes bs).take ((padBytes bs).length - p) = bs := by
    rw [hlen, Nat.add_sub_cancel, padBytes, ← hp]
    exact List.take_left bs (List.replicate p p)
  simp only [unpadBytes, hlast]
  rw [if_pos ⟨hp1, hp16, by omega, hdrop⟩, htake]

theorem padBytes_length_mod (bs : List Nat) :
    (padBytes bs).length % blockSize = 0 := by
  have hmod : bs.length % blockSize < blockSize := Nat.mod_lt _ (by decide)
  have h1 : (padBytes bs).length =
      bs.length + (blockSize - bs.length % blockSize) := by simp [padBytes]
  rw [h1]
  simp only [blockSize]
  omega

theorem padBytes_bytes_lt (bs : List Nat) (hb : ∀ b ∈ bs, b < 256) :
    ∀ x ∈ padBytes bs, x < 256 := by
  intro x hx
  rcases List.mem_append.1 hx with h1 | h2
  · exact hb x h1
  · have h3 := List.eq_of_mem_replicate h2
    have h4 : blockSize = 16 := rfl
    omega

theorem toBlocksAux_fuel_irrel (f1 : Nat) :
    ∀ (f2 : Nat) (l : List Nat), l.length ≤ f1 → l.length ≤ f2 →
      toBlocksAux f1 l = toBlocksAux f2 l := by
  induction f1 with
  | zero =>
    intro f2 l h1 h2
    have hl : l = [] := List.length_eq_zero.1 (by omega)
    subst hl
    cases f2 <;> rfl
  | succ g1 ih =>
    intro f2 l h1 h2
    cases l with
    | nil => cases f2 <;> rfl
    | cons b tl =>
      cases f2 with
      | zero => simp at h2
      | succ g2 =>
        simp only [toBlocksAux]
        congr 1
        apply ih
        · simp only [List.length_drop, List.length_cons, blockSize] at h1 ⊢
          omega
        · simp only [List.length_drop, List.length_cons, blockSize] at h2 ⊢
          omega

theorem toBlocks_append (c rest : List Nat) (hc : c.length = blockSize) :
    toBlocks (c ++ rest) = c :: toBlocks rest := by
  obtain ⟨x, xs, rfl⟩ : ∃ x xs, c = x :: xs := by
    cases c with
    | nil => simp [blockSize] at hc
    | cons x xs => exact ⟨x, xs, rfl⟩
  have htake : (x :: (xs ++ rest)).take blockSize = x :: xs := by
    rw [← List.cons_append, ← hc]
    exact List.take_left (x :: xs) rest
  have hdrop : (x :: (xs ++ rest)).drop blockSize = rest := by
    rw [← List.cons_append, ← hc]
    exact List.drop_left (x :: xs) rest
  have hlen : ((x :: xs) ++ rest).length = (blockSize - 1 + rest.length) + 1 := by
    simp only [List.length_append, hc, blockSize] at *
    omega
  rw [toBlocks, hlen, List.cons_append]
  simp only [toBlocksAux, List.append_eq]
  rw [htake, hdrop, toBlocks]
  congr 1
  exact toBlocksAux_fuel_irrel _ _ rest (by simp only [blockSize]; omega)
    (by omega)

theorem flatten_toBlocks (n : Nat) : ∀ l : List Nat, l.length ≤ n →
    l.length % blockSize = 0 → (toBlocks l).flatten = l := by
  induction n with
  | zero =>
    intro l h1 _
    have hl : l = [] := List.length_eq_zero.1 (by omega)
    subst hl
    rfl
  | succ m ih =>
    intro l h1 h2
    cases l with
    | nil => rfl
    | cons b tl =>
      have hlen16 : blockSize ≤ (b :: tl).length := by
        simp only [blockSize, List.length_cons] at h2 ⊢
        omega
      have htk : ((b :: tl).take blockSize).length = blockSize := by
        simp only [List.length_take]
        omega
      have hrec : (toBlocks ((b :: tl).drop blockSize)).flatten =
          (b :: tl).drop blockSize := by
        apply ih
        · simp only [List.length_drop, List.length_cons, blockSize] at h1 ⊢
          omega
        · simp only [List.length_drop, List.length_cons, blockSize] at h2 ⊢
          omega
      conv_lhs =>
        rw [← List.take_append_drop blockSize (b :: tl),
          toBlocks_append _ _ htk]
      simp only [List.flatten_cons, hrec]
      exact List.take_append_drop blockSize (b :: tl)

theorem toBlocks_props (n : Nat) : ∀ l : List Nat, l.length ≤ n →
    l.length % blockSize = 0 → (∀ x ∈ l, x < 256) →
    ∀ b ∈ toBlocks l, b.length = blockSize ∧ ∀ x ∈ b, x < 256 := by
  induction n with
  | zero =>
    intro l h1 _ _ b hb
    have hl : l = [] := List.length_eq_zero.1 (by omega)
    subst hl
    simp [toBlocks, toBlocksAux] at hb
  | succ m ih =>
    intro l h1 h2 h3 b hb
    cases l with
    | nil => simp [toBlocks, toBlocksAux] at hb
    | cons x tl =>
      have hlen16 : blockSize ≤ (x :: tl).length := by
        simp only [blockSize, List.length_cons] at h2 ⊢
        omega
      have htk : ((x :: tl).take blockSize).length = blockSize := by
        simp only [List.length_take]
        omega
      rw [← List.take_append_drop blockSize (x :: tl),
        toBlocks_append _ _ htk] at hb
      rcases List.mem_cons.1 hb with h4 | h5
      · subst h4
        exact ⟨htk, fun y hy => h3 y (List.mem_of_mem_take hy)⟩
      · apply ih ((x :: tl).drop blockSize)
        · simp only [List.length_drop, List.length_cons, blockSize] at h1 ⊢
          omega
        · simp only [List.length_drop, List.length_cons, blockSize] at h2 ⊢
          omega
        · exact fun y hy => h3 y (List.mem_of_mem_drop hy)
        · exact h5


theorem toBlocks_flatten (blocks : List (List Nat))
    (h : ∀ b ∈ blocks, b.length = blockSize) :
    toBlocks blocks.flatten = blocks := by
  induction blocks with
  | nil => rfl
  | cons c cs ih =>
    rw [List.flatten_cons, toBlocks_append c cs.flatten
      (h c (List.mem_cons_self c cs))]
    rw [ih (fun b hb => h b (List.mem_cons_of_mem c hb))]

theorem cbcEncBlocks_props (E : List Nat → List Nat)
    (hElen : ∀ b, b.length = blockSize → (∀ x ∈ b, x < 256) →
      (E b).length = blockSize)
    (hEbyte : ∀ b, b.length = blockSize → (∀ x ∈ b, x < 256) →
      ∀ x ∈ E b, x < 256) :
    ∀ (blocks : List (List Nat)) (iv : List Nat), iv.length = blockSize →
      (∀ x ∈ iv, x < 256) →
      (∀ b ∈ blocks, b.length = blockSize ∧ ∀ x ∈ b, x < 256) →
      ∀ c ∈ cbcEncBlocks E iv blocks,
        c.length = blockSize ∧ ∀ x ∈ c, x < 256 := by
  intro blocks
  induction blocks with
  | nil => intro iv _ _ _ c hc; simp [cbcEncBlocks] at hc
  | cons b bs ih =>
    intro iv hivlen hivb hblocks c hc
    have hb := hblocks b (List.mem_cons_self b bs)
    have hxlen : (xorBytes b iv).length = blockSize := by
      rw [xorBytes_length, hb.1, hivlen]
      simp
    have hxbyte : ∀ x ∈ xorBytes b iv, x < 256 :=
      xorBytes_bytes_lt b iv hb.2 hivb
    have hclen : (E (xorBytes b iv)).length = blockSize := hElen _ hxlen hxbyte
    have hcbyte : ∀ x ∈ E (xorBytes b iv), x < 256 := hEbyte _ hxlen hxbyte
    simp only [cbcEncBlocks, List.mem_cons] at hc
    rcases hc with h1 | h2
    · exact h1 ▸ ⟨hclen, hcbyte⟩
    · exact ih (E (xorBytes b iv)) hclen hcbyte
        (fun x hx => hblocks x (List.mem_cons_of_mem b hx)) c h2

theorem cbcDecBlocks_cbcEncBlocks (E D : List Nat → List Nat)
    (hED : ∀ b, b.length = blockSize → (∀ x ∈ b, x < 256) → D (E b) = b)
    (hElen : ∀ b, b.length = blockSize → (∀ x ∈ b, x < 256) →
      (E b).length = blockSize)
    (hEbyte : ∀ b, b.length = blockSize → (∀ x ∈ b, x < 256) →
      ∀ x ∈ E b, x < 256) :
    ∀ (blocks : List (List Nat)) (iv : List Nat), iv.length = blockSize →
      (∀ x ∈ iv, x < 256) →
      (∀ b ∈ blocks, b.length = blockSize ∧ ∀ x ∈ b, x < 256) →
      cbcDecBlocks D iv (cbcEncBlocks E iv blocks) = blocks := by
  intro blocks
  induction blocks with
  | nil => intro iv _ _ _; rfl
  | cons b bs ih =>
    intro iv hivlen hivb hblocks
    have hb := hblocks b (List.mem_cons_self b bs)
    have hxlen : (xorBytes b iv).length = blockSize := by
      rw [xorBytes_length, hb.1, hivlen]
      simp
    have hxbyte : ∀ x ∈ xorBytes b iv, x < 256 :=
      xorBytes_bytes_lt b iv hb.2 hivb
    have hclen : (E (xorBytes b iv)).length = blockSize := hElen _ hxlen hxbyte
    have hcbyte : ∀ x ∈ E (xorBytes b iv), x < 256 := hEbyte _ hxlen hxbyte
    simp only [cbcEncBlocks, cbcDecBlocks]
    rw [hED _ hxlen hxbyte,
      xorBytes_cancel b iv (by rw [hb.1, hivlen])]
    rw [ih (E (xorBytes b iv)) hclen hcbyte
      (fun x hx => hblocks x (List.mem_cons_of_mem b hx))]

/-- Claim C10: the dispatcher's symmetric transport is invertible — for any
plaintext byte sequence and any IV chosen by `encrypt`, decrypting the wire
form `ivHex + ":" + cipherHex` with the same static key recovers the
plaintext.  `E`/`D` are the AES-256 block transforms Node's `crypto`
supplies for that key (external to this repository), assumed mutually
inverse, length-preserving and byte-valued on 16-byte byte blocks. -/
theorem encrypt_decrypt_roundtrip (E D : List Nat → List Nat) (iv s : List Nat)
    (hED : ∀ b, b.length = blockSize → (∀ x ∈ b, x < 256) → D (E b) = b)
    (hElen : ∀ b, b.length = blockSize → (∀ x ∈ b, x < 256) →
      (E b).length = blockSize)
    (hEbyte : ∀ b, b.length = blockSize → (∀ x ∈ b, x < 256) →
      ∀ x ∈ E b, x < 256)
    (hiv : iv.length = blockSize) (hivb : ∀ x ∈ iv, x < 256)
    (hs : ∀ b ∈ s, b < 256) :
    decrypt D (encrypt E iv s) = some s := by
  have hpadb : ∀ x ∈ padBytes s, x < 256 := padBytes_bytes_lt s hs
  have hpadmod : (padBytes s).length % blockSize = 0 := padBytes_length_mod s
  have hblocks : ∀ b ∈ toBlocks (padBytes s),
      b.length = blockSize ∧ ∀ x ∈ b, x < 256 :=
    toBlocks_props (padBytes s).length (padBytes s) le_rfl hpadmod hpadb
  have hcts : ∀ c ∈ cbcEncBlocks E iv (toBlocks (padBytes s)),
      c.length = blockSize ∧ ∀ x ∈ c, x < 256 :=
    cbcEncBlocks_props E hElen hEbyte (toBlocks (padBytes s)) iv hiv hivb hblocks
  have hctb : ∀ x ∈ (cbcEncBlocks E iv (toBlocks (padBytes s))).flatten,
      x < 256 := by
    intro x hx
    rcases List.mem_flatten.1 hx with ⟨c, hc, hxc⟩
    exact (hcts c hc).2 x hxc
  have hnc1 : ∀ c ∈ hexEncode iv, (c != ':') = true :=
    hexEncode_no_colon iv hivb
  have hnc2 : ∀ c ∈ hexEncode
      (cbcEncBlocks E iv (toBlocks (padBytes s))).flatten, (c != ':') = true :=
    hexEncode_no_colon _ hctb
  have hpart0 : splitColonPart0 (encrypt E iv s) = hexEncode iv := by
    rw [encrypt, splitColonPart0, takeWhile_append_colon _ _ hnc1]
  have hpart1 : splitColonPart1 (encrypt E iv s) =
      hexEncode (cbcEncBlocks E iv (toBlocks (padBytes s))).flatten := by
    rw [encrypt, splitColonPart1, dropWhile_append_colon _ _ hnc1]
    simp only [List.drop_succ_cons, List.drop_zero]
    exact List.takeWhile_eq_self_iff.2 hnc2
  rw [decrypt, hpart0, hpart1, hexDecode_hexEncode iv hivb,
    hexDecode_hexEncode _ hctb,
    toBlocks_flatten _ (fun b hb => (hcts b hb).1),
    cbcDecBlocks_cbcEncBlocks E D hED hElen hEbyte
      (toBlocks (padBytes s)) iv hiv hivb hblocks,
    flatten_toBlocks (padBytes s).length (padBytes s) le_rfl hpadmod,
    unpadBytes_padBytes]

/-- Witness for C10 at concrete inputs: with the identity block transform
(trivially its own inverse) a concrete three-byte plaintext survives the
encrypt/decrypt round trip through the `ivHex:cipherHex` wire form. -/
theorem encrypt_decrypt_roundtrip_witness :
    decrypt id (encrypt id (List.replicate 16 7) [72, 105, 33]) =
      some [72, 105, 33] :=
  encrypt_decrypt_roundtrip id id (List.replicate 16 7) [72, 105, 33]
    (fun _ _ _ => rfl) (fun _ hb _ => hb) (fun _ _ hbb => hbb)
    (by decide) (by decide) (by decide)

end NewsBackend
